import Mathlib

/-!
Verification of the optimistic-update todo application (solidstart-data).

The source route component defines:
* a cached list query `getTodos` backed by `db.todo.findMany()`;
* a `createToDo` action: validates the form text, inserts a todo, waits an
  artificial delay, then revalidates the `todos` cache key;
* an `update` action: `db.todo.update` sets the `completed` field for an id,
  then (after the delay) revalidates the cache key;
* `actualToDos`, a memo that overlays pending `update` submissions onto the
  last `getTodos` snapshot: if no submission is pending it returns the
  snapshot as-is, otherwise it maps each todo, looking for the first
  submission `e` with `e.pending` and `e.input[1] === todo.id`, and if found
  replaces `completed` by `e.input[0]`.

The embedding below is shallow: server state is passed explicitly, the
database is a Lean list, the artificial delay has no observable state effect
and is dropped, and the order of the store write and the cache revalidation
inside an action is recorded as an explicit event trace.
-/

namespace SolidStartData

/-- A todo record as stored by the Item Store: id, text, completed flag. -/
structure Todo where
  id : String
  text : String
  completed : Bool
  deriving Repr, DecidableEq

/-- One entry of `useSubmissions(update)`: a `pending` flag and the original
input arguments of the `update` action.  The action signature is
`(chcked: boolean, id: string)`, so `input.1` is the checked flag
(`e.input[0]` in the source) and `input.2` is the target id (`e.input[1]`). -/
structure Submission where
  pending : Bool
  input : Bool × String
  deriving Repr, DecidableEq

/-- The body of the `map` callback inside `actualToDos`: find the first
pending submission targeting the id of this todo; if one exists, return a
copy of the todo with `completed` replaced by the checked argument of that
submission, otherwise return the todo unchanged. -/
def overlayTodo (updateSubmissions : List Submission) (todo : Todo) : Todo :=
  match updateSubmissions.find? (fun e => e.pending && e.input.2 == todo.id) with
  | some e => { todo with completed := e.input.1 }
  | none => todo

/-- The `actualToDos` memo.  `todos` is the value of `createAsync(getTodos)`,
which is `undefined` (here `none`) until the first fetch resolves.
`updateSubmissions.pending` in solid-router is true iff some entry in the
submission list is pending, which we spell as `List.any`. -/
def actualToDos (todos : Option (List Todo))
    (updateSubmissions : List Submission) : Option (List Todo) :=
  if !updateSubmissions.any (fun e => e.pending) then todos
  else todos.map (fun t => t.map (overlayTodo updateSubmissions))

/-- Errors surfaced by the two actions. -/
inductive ActionError where
  | validationError (msg : String)
  | notFoundError
  deriving Repr, DecidableEq

/-- Observable store/cache effects of an action, recorded in source order. -/
inductive Event where
  | storeWrite
  | invalidateListQuery
  deriving Repr, DecidableEq

/-- Server-side state: the Item Store contents and the cached value of the
`todos` list query (`none` means invalidated / not yet cached). -/
structure ServerState where
  store : List Todo
  cached : Option (List Todo)
  deriving Repr, DecidableEq

/-- The cached list query `getTodos`: returns the cached snapshot if one is
valid, otherwise reads the Item Store and caches the result. -/
def getTodos (s : ServerState) : List Todo × ServerState :=
  match s.cached with
  | some v => (v, s)
  | none => (s.store, { s with cached := some s.store })

/-- Modelled from the spec: the insert operation of the Item Store
(`db.todo.create`, whose implementation lives outside `src/`): inserts a new
Todo with the given text, a freshly generated id, and `completed = false`. -/
def dbTodoCreate (text : String) (newId : String) (store : List Todo) :
    List Todo :=
  store ++ [{ id := newId, text := text, completed := false }]

/-- Modelled from the spec: the `updateCompleted` operation of the Item Store
(`db.todo.update`, whose implementation lives outside `src/`): if `id`
references an existing Todo, set its `completed` field; otherwise fail with a
NotFoundError. -/
def dbTodoUpdate (id : String) (completed : Bool) (store : List Todo) :
    Except ActionError (List Todo) :=
  if store.any (fun t => t.id == id) then
    .ok (store.map (fun t =>
      if t.id == id then { t with completed := completed } else t))
  else .error .notFoundError

/-- The `createToDo` action.  `text` is `formData.get("text")`, which is
`null` (`none`) when the field is absent.  The source throws
`Error("Missing Text")` when the value is absent or falsy (the empty string)
before touching the database; on success it inserts the todo and then
revalidates the `todos` cache key.  The returned trace lists the store/cache
effects in the order the source performs them. -/
def createToDo (text : Option String) (newId : String) (s : ServerState) :
    Except ActionError Unit × ServerState × List Event :=
  match text with
  | none => (.error (.validationError "Missing Text"), s, [])
  | some t =>
    if t = "" then (.error (.validationError "Missing Text"), s, [])
    else (.ok (),
      { store := dbTodoCreate t newId s.store, cached := none },
      [.storeWrite, .invalidateListQuery])

/-- The `update` action (registered as `updateToDo`): writes the `completed`
field through the Item Store, then revalidates the `todos` cache key.  A
store failure propagates and no revalidation happens. -/
def update (chcked : Bool) (id : String) (s : ServerState) :
    Except ActionError Unit × ServerState × List Event :=
  match dbTodoUpdate id chcked s.store with
  | .error e => (.error e, s, [])
  | .ok store2 =>
    (.ok (), { store := store2, cached := none },
      [.storeWrite, .invalidateListQuery])

/-- A trace performs invalidation only after a store write has committed:
every `invalidateListQuery` event is preceded by a `storeWrite` event. -/
def writeBeforeInvalidation (tr : List Event) : Prop :=
  ∀ j : Fin tr.length, tr.get j = .invalidateListQuery →
    ∃ i : Fin tr.length, tr.get i = .storeWrite ∧ (i : Nat) < (j : Nat)

instance (tr : List Event) : Decidable (writeBeforeInvalidation tr) := by
  unfold writeBeforeInvalidation
  infer_instance

/-- Helper: a successful `update` has a fixed, explicit result. -/
theorem update_eq_of_mem (c : Bool) (id : String) (s : ServerState)
    (hany : s.store.any (fun t => t.id == id) = true) :
    update c id s = (.ok (),
      ⟨s.store.map (fun t =>
        if t.id == id then { t with completed := c } else t), none⟩,
      [.storeWrite, .invalidateListQuery]) := by
  unfold update dbTodoUpdate
  rw [hany]
  rfl

/-- Claim C1: overlay correctness of the view computation.  For every
snapshot `S` and pending set `P` with at least one pending entry, the result
is defined, has the same length and order as `S`, and each position holds:
if a pending entry whose id argument equals the id of the todo exists, the
output at that position is a copy of the todo with `completed` replaced by
the checked argument of the FIRST such entry (all earlier entries fail the
pending-and-id test) and other fields unchanged; if no such entry exists,
the todo passes through unchanged. -/
theorem computeView_overlay_correct (S : List Todo) (P : List Submission)
    (hP : P.any (fun e => e.pending) = true) :
    ∃ V : List Todo, actualToDos (some S) P = some V ∧ V.length = S.length ∧
      ∀ i : Fin S.length, ∀ hv : (i : Nat) < V.length,
        ((∃ j : Fin P.length,
            (P.get j).pending = true ∧ (P.get j).input.2 = (S.get i).id) →
          ∃ j : Fin P.length,
            (P.get j).pending = true ∧ (P.get j).input.2 = (S.get i).id ∧
            (∀ k : Fin P.length, (k : Nat) < (j : Nat) →
              ¬((P.get k).pending = true ∧ (P.get k).input.2 = (S.get i).id)) ∧
            V.get ⟨(i : Nat), hv⟩ =
              { S.get i with completed := (P.get j).input.1 }) ∧
        ((∀ j : Fin P.length,
            ¬((P.get j).pending = true ∧ (P.get j).input.2 = (S.get i).id)) →
          V.get ⟨(i : Nat), hv⟩ = S.get i) := by
  refine ⟨S.map (overlayTodo P), ?_, by simp, ?_⟩
  · simp [actualToDos, hP]
  · intro i hv
    have hVg : (S.map (overlayTodo P)).get ⟨(i : Nat), hv⟩
        = overlayTodo P (S.get i) := by
      simp [List.getElem_map]
    set q : Submission → Bool :=
      fun e => e.pending && e.input.2 == (S.get i).id with hq
    have hqiff : ∀ e : Submission,
        q e = true ↔ (e.pending = true ∧ e.input.2 = (S.get i).id) := by
      intro e
      simp [hq, Bool.and_eq_true]
    cases hfind : P.find? q with
    | some e =>
      rw [List.find?_eq_some_iff_getElem] at hfind
      obtain ⟨hqe, jn, hjn, hPj, hbefore⟩ := hfind
      constructor
      · intro _
        refine ⟨⟨jn, hjn⟩, ?_, ?_, ?_, ?_⟩
        · have := (hqiff e).mp hqe
          simp [List.get_eq_getElem, hPj, this.1]
        · have := (hqiff e).mp hqe
          simp [List.get_eq_getElem, hPj, this.2]
        · intro k hk hcontra
          have hqk : q (P.get k) = true := (hqiff _).mpr hcontra
          have := hbefore (k : Nat) hk
          simp [List.get_eq_getElem] at hqk
          simp [hqk] at this
        · rw [hVg]
          unfold overlayTodo
          have hfind2 : P.find?
              (fun e => e.pending && e.input.2 == (S.get i).id) = some e := by
            rw [List.find?_eq_some_iff_getElem]
            exact ⟨hqe, jn, hjn, hPj, hbefore⟩
          rw [hfind2]
          simp [List.get_eq_getElem, hPj]
      · intro hnone
        exfalso
        have := hnone ⟨jn, hjn⟩
        apply this
        have := (hqiff e).mp hqe
        simp [List.get_eq_getElem, hPj]
        exact this
    | none =>
      constructor
      · intro ⟨j, hj⟩
        exfalso
        rw [List.find?_eq_none] at hfind
        have := hfind (P.get j)
          (by simp [List.get_eq_getElem, List.getElem_mem])
        exact this ((hqiff _).mpr hj)
      · intro _
        rw [hVg]
        unfold overlayTodo
        have hfind2 : P.find?
            (fun e => e.pending && e.input.2 == (S.get i).id) = none := hfind
        rw [hfind2]

/-- Witness for C1 at the concrete input of spec property P3. -/
theorem computeView_overlay_correct_witness :
    (([⟨true, (true, "1")⟩] : List Submission).any (fun e => e.pending)
        = true) ∧
    (∃ V : List Todo,
      actualToDos (some [⟨"1", "a", false⟩]) [⟨true, (true, "1")⟩] = some V ∧
      V.length = ([(⟨"1", "a", false⟩ : Todo)] : List Todo).length ∧
      ∀ i : Fin ([(⟨"1", "a", false⟩ : Todo)] : List Todo).length,
        ∀ hv : (i : Nat) < V.length,
        ((∃ j : Fin ([⟨true, (true, "1")⟩] : List Submission).length,
            (([⟨true, (true, "1")⟩] : List Submission).get j).pending = true ∧
            (([⟨true, (true, "1")⟩] : List Submission).get j).input.2
              = (([(⟨"1", "a", false⟩ : Todo)] : List Todo).get i).id) →
          ∃ j : Fin ([⟨true, (true, "1")⟩] : List Submission).length,
            (([⟨true, (true, "1")⟩] : List Submission).get j).pending = true ∧
            (([⟨true, (true, "1")⟩] : List Submission).get j).input.2
              = (([(⟨"1", "a", false⟩ : Todo)] : List Todo).get i).id ∧
            (∀ k : Fin ([⟨true, (true, "1")⟩] : List Submission).length,
              (k : Nat) < (j : Nat) →
              ¬((([⟨true, (true, "1")⟩] : List Submission).get k).pending
                  = true ∧
                (([⟨true, (true, "1")⟩] : List Submission).get k).input.2
                  = (([(⟨"1", "a", false⟩ : Todo)] : List Todo).get i).id)) ∧
            V.get ⟨(i : Nat), hv⟩ =
              { ([(⟨"1", "a", false⟩ : Todo)] : List Todo).get i with
                completed :=
                  (([⟨true, (true, "1")⟩] : List Submission).get j).input.1 }) ∧
        ((∀ j : Fin ([⟨true, (true, "1")⟩] : List Submission).length,
            ¬((([⟨true, (true, "1")⟩] : List Submission).get j).pending
                = true ∧
              (([⟨true, (true, "1")⟩] : List Submission).get j).input.2
                = (([(⟨"1", "a", false⟩ : Todo)] : List Todo).get i).id)) →
          V.get ⟨(i : Nat), hv⟩
            = ([(⟨"1", "a", false⟩ : Todo)] : List Todo).get i)) :=
  ⟨by decide,
    computeView_overlay_correct [⟨"1", "a", false⟩] [⟨true, (true, "1")⟩]
      (by decide)⟩

/-- Claim C2: if the pending set contains no entry with `pending == true`,
`actualToDos` returns the snapshot unchanged. -/
theorem computeView_passthrough (todos : Option (List Todo))
    (P : List Submission) (hP : P.any (fun e => e.pending) = false) :
    actualToDos todos P = todos := by
  simp [actualToDos, hP]

/-- Witness for C2 at a concrete snapshot and a pending set whose only entry
is settled. -/
theorem computeView_passthrough_witness :
    ([⟨false, (true, "1")⟩] : List Submission).any (fun e => e.pending)
        = false ∧
      actualToDos (some [⟨"1", "a", false⟩]) [⟨false, (true, "1")⟩]
        = some [⟨"1", "a", false⟩] :=
  ⟨by decide, computeView_passthrough _ _ (by decide)⟩

/-- Claim C3 as stated is FALSE on the code: with two pending entries for id
"1", the earlier submitting completed = false and the later (most recently
submitted) completed = true, the view shows completed = false — the value of
the FIRST entry in insertion order, not of the most recently submitted one,
because `Array.prototype.find` returns the first match. -/
theorem mostRecent_counterexample :
    actualToDos (some [{ id := "1", text := "a", completed := false }])
        [⟨true, (false, "1")⟩, ⟨true, (true, "1")⟩]
      = some [{ id := "1", text := "a", completed := false }] ∧
    (some [{ id := "1", text := "a", completed := false }]
        : Option (List Todo)) ≠
      some [{ id := "1", text := "a", completed := true }] := by
  constructor
  · rfl
  · decide

/-- Claim C3 amended: at most one predicted completed-state per id, and when
multiple pending entries target the same id, the FIRST pending entry in
insertion order (the earliest submitted) wins; later entries (here `P₂`,
which may contain further pending entries for the same id) are ignored. -/
theorem earliest_pending_wins (S : List Todo) (P₁ P₂ : List Submission)
    (e : Submission) (i : Fin S.length)
    (he : e.pending = true) (hid : e.input.2 = (S.get i).id)
    (h₁ : ∀ x ∈ P₁, ¬(x.pending = true ∧ x.input.2 = (S.get i).id)) :
    ∃ V : List Todo, actualToDos (some S) (P₁ ++ e :: P₂) = some V ∧
      ∃ hv : (i : Nat) < V.length,
        V.get ⟨(i : Nat), hv⟩ = { S.get i with completed := e.input.1 } := by
  have hany : (P₁ ++ e :: P₂).any (fun x => x.pending) = true := by
    rw [List.any_eq_true]
    exact ⟨e, by simp, he⟩
  refine ⟨S.map (overlayTodo (P₁ ++ e :: P₂)),
    by simp [actualToDos, hany], ?_⟩
  have hv : (i : Nat) < (S.map (overlayTodo (P₁ ++ e :: P₂))).length := by
    simp [i.isLt]
  refine ⟨hv, ?_⟩
  have hVg : (S.map (overlayTodo (P₁ ++ e :: P₂))).get ⟨(i : Nat), hv⟩
      = overlayTodo (P₁ ++ e :: P₂) (S.get i) := by
    simp [List.getElem_map]
  rw [hVg]
  unfold overlayTodo
  have hnone : P₁.find? (fun x => x.pending && x.input.2 == (S.get i).id)
      = none := by
    rw [List.find?_eq_none]
    intro x hx
    have := h₁ x hx
    simp [Bool.and_eq_true]
    intro hp hq
    exact absurd ⟨hp, hq⟩ this
  have hsome : (P₁ ++ e :: P₂).find?
      (fun x => x.pending && x.input.2 == (S.get i).id) = some e := by
    rw [List.find?_append, hnone]
    simp [List.find?_cons, he, hid]
  rw [hsome]

/-- Witness for the amended C3: a settled entry before, the winning pending
entry for id "1" with checked = true, and a later pending entry for the same
id with checked = false that is ignored. -/
theorem earliest_pending_wins_witness :
    ((⟨true, (true, "1")⟩ : Submission).pending = true) ∧
    ((⟨true, (true, "1")⟩ : Submission).input.2
      = (([(⟨"1", "a", false⟩ : Todo)] : List Todo).get ⟨0, Nat.one_pos⟩).id) ∧
    (∀ x ∈ ([⟨false, (true, "1")⟩] : List Submission),
      ¬(x.pending = true ∧ x.input.2
        = (([(⟨"1", "a", false⟩ : Todo)] : List Todo).get ⟨0, Nat.one_pos⟩).id)) ∧
    (∃ V : List Todo,
      actualToDos (some [⟨"1", "a", false⟩])
          ([⟨false, (true, "1")⟩] ++
            (⟨true, (true, "1")⟩ : Submission) :: [⟨true, (false, "1")⟩])
        = some V ∧
      ∃ hv : 0 < V.length,
        V.get ⟨0, hv⟩
          = { ([(⟨"1", "a", false⟩ : Todo)] : List Todo).get ⟨0, Nat.one_pos⟩
              with completed := (⟨true, (true, "1")⟩ : Submission).input.1 }) :=
  ⟨rfl, rfl, by decide,
    earliest_pending_wins [⟨"1", "a", false⟩] [⟨false, (true, "1")⟩]
      [⟨true, (false, "1")⟩] ⟨true, (true, "1")⟩ ⟨0, Nat.one_pos⟩
      rfl rfl (by decide)⟩

/-- Claim C4: for absent (`none`) or empty text, `createToDo` fails with the
validation error, returns the server state untouched, and performs no store
or cache effect at all (empty trace). -/
theorem createToDo_validation (text : Option String) (newId : String)
    (s : ServerState) (h : text = none ∨ text = some "") :
    createToDo text newId s
      = (.error (.validationError "Missing Text"), s, []) := by
  rcases h with h | h <;> subst h <;> simp [createToDo]

/-- Witness for C4: both the absent and the empty text fail with the
validation error and leave the store untouched. -/
theorem createToDo_validation_witness :
    ((none : Option String) = none ∨ (none : Option String) = some "") ∧
    ((some "" : Option String) = none ∨ (some "" : Option String) = some "") ∧
    createToDo none "id9" ⟨[⟨"1", "a", false⟩], none⟩
      = (.error (.validationError "Missing Text"),
          ⟨[⟨"1", "a", false⟩], none⟩, []) ∧
    createToDo (some "") "id9" ⟨[⟨"1", "a", false⟩], none⟩
      = (.error (.validationError "Missing Text"),
          ⟨[⟨"1", "a", false⟩], none⟩, []) :=
  ⟨Or.inl rfl, Or.inr rfl,
    createToDo_validation none "id9" ⟨[⟨"1", "a", false⟩], none⟩ (Or.inl rfl),
    createToDo_validation (some "") "id9" ⟨[⟨"1", "a", false⟩], none⟩
      (Or.inr rfl)⟩

/-- Claim C5: when no todo in the store has the given id, `update` fails
with the not-found error, which is surfaced to the caller; the state is
unchanged and no store/cache effect happens. -/
theorem update_notFound (c : Bool) (id : String) (s : ServerState)
    (h : ∀ t ∈ s.store, t.id ≠ id) :
    update c id s = (.error .notFoundError, s, []) := by
  have hany : s.store.any (fun t => t.id == id) = false := by
    rw [List.any_eq_false]
    intro t ht
    simp [h t ht]
  unfold update dbTodoUpdate
  rw [hany]
  rfl

/-- Witness for C5 with a store holding only id "1" and a request for
id "2". -/
theorem update_notFound_witness :
    (∀ t ∈ ([⟨"1", "a", false⟩] : List Todo), t.id ≠ "2") ∧
    update true "2" ⟨[⟨"1", "a", false⟩], some [⟨"1", "a", false⟩]⟩
      = (.error .notFoundError,
          ⟨[⟨"1", "a", false⟩], some [⟨"1", "a", false⟩]⟩, []) :=
  ⟨by decide, update_notFound true "2" _ (by decide)⟩

/-- Claim C6: for every `createToDo` and `update` invocation, the cache
invalidation appears in the effect trace only after the store write; and
after `update true id` succeeds, the next `getTodos` fetch returns id with
`completed = true` (read-after-write). -/
theorem invalidation_after_write (s : ServerState) (id : String) :
    (∀ (text newId : String) (r : Except ActionError Unit)
        (s' : ServerState) (tr : List Event),
      createToDo (some text) newId s = (r, s', tr) →
        writeBeforeInvalidation tr) ∧
    (∀ (c : Bool) (r : Except ActionError Unit)
        (s' : ServerState) (tr : List Event),
      update c id s = (r, s', tr) → writeBeforeInvalidation tr) ∧
    ((∃ t ∈ s.store, t.id = id) →
      ∃ (s' : ServerState) (tr : List Event),
        update true id s = (.ok (), s', tr) ∧
        (∃ t ∈ (getTodos s').1, t.id = id ∧ t.completed = true) ∧
        (∀ t ∈ (getTodos s').1, t.id = id → t.completed = true)) := by
  refine ⟨?_, ?_, ?_⟩
  · intro text newId r s' tr h
    unfold createToDo at h
    by_cases ht : text = "" <;>
      · simp [ht] at h
        obtain ⟨-, -, htr⟩ := h
        subst htr
        decide
  · intro c r s' tr h
    unfold update at h
    cases hdb : dbTodoUpdate id c s.store <;>
      · rw [hdb] at h
        simp at h
        obtain ⟨-, -, htr⟩ := h
        subst htr
        decide
  · rintro ⟨t₀, ht₀, hid⟩
    have hany : s.store.any (fun t => t.id == id) = true := by
      rw [List.any_eq_true]
      exact ⟨t₀, ht₀, by simp [hid]⟩
    refine ⟨⟨s.store.map (fun t =>
        if t.id == id then { t with completed := true } else t), none⟩,
      [.storeWrite, .invalidateListQuery], ?_, ?_, ?_⟩
    · unfold update dbTodoUpdate
      rw [hany]
      rfl
    · refine ⟨{ t₀ with completed := true }, ?_, by simp [hid], rfl⟩
      show { t₀ with completed := true } ∈ s.store.map _
      rw [List.mem_map]
      exact ⟨t₀, ht₀, by simp [hid]⟩
    · intro t ht htid
      have hmem : t ∈ s.store.map (fun t =>
          if t.id == id then { t with completed := true } else t) := ht
      rw [List.mem_map] at hmem
      obtain ⟨u, -, hu⟩ := hmem
      by_cases hc : (u.id == id) = true
      · rw [if_pos hc] at hu
        rw [← hu]
      · rw [if_neg hc] at hu
        subst hu
        simp at hc
        exact absurd htid hc

/-- Witness for C6: a concrete create trace is write-before-invalidate, and
after a concrete successful update the next fetch shows the new value. -/
theorem invalidation_after_write_witness :
    writeBeforeInvalidation [Event.storeWrite, Event.invalidateListQuery] ∧
    (∃ (s' : ServerState) (tr : List Event),
      update true "1" ⟨[⟨"1", "a", false⟩], some [⟨"1", "a", false⟩]⟩
        = (.ok (), s', tr) ∧
      (∃ t ∈ (getTodos s').1, t.id = "1" ∧ t.completed = true) ∧
      (∀ t ∈ (getTodos s').1, t.id = "1" → t.completed = true)) :=
  ⟨(invalidation_after_write ⟨[], none⟩ "1").1 "milk" "2" (.ok ())
      ⟨[⟨"2", "milk", false⟩], none⟩
      [Event.storeWrite, Event.invalidateListQuery] rfl,
    (invalidation_after_write
        ⟨[⟨"1", "a", false⟩], some [⟨"1", "a", false⟩]⟩ "1").2.2
      ⟨⟨"1", "a", false⟩, by decide, rfl⟩⟩

/-- Helper for C7: filtering the submission list to the pending entries does
not change whether some entry is pending. -/
theorem any_pending_filter (P : List Submission) :
    (P.filter (fun e => e.pending)).any (fun e => e.pending)
      = P.any (fun e => e.pending) := by
  induction P with
  | nil => rfl
  | cons x tl ih =>
    cases h : x.pending <;>
      simp [List.filter_cons, List.any_cons, h, ih]

/-- Helper for C7: the first pending match for an id is unaffected by
dropping the settled (non-pending) entries. -/
theorem find?_pending_filter (P : List Submission) (s : String) :
    (P.filter (fun e => e.pending)).find?
        (fun e => e.pending && e.input.2 == s)
      = P.find? (fun e => e.pending && e.input.2 == s) := by
  induction P with
  | nil => rfl
  | cons x tl ih =>
    cases h : x.pending with
    | false =>
      simp [List.filter_cons, h, List.find?_cons, ih]
    | true =>
      cases hm : (x.input.2 == s) with
      | false => simp [List.filter_cons, h, List.find?_cons, hm, ih]
      | true => simp [List.filter_cons, h, List.find?_cons, hm]

/-- Helper for C7: the per-todo overlay only depends on the pending entries. -/
theorem overlay_filter (P : List Submission) :
    overlayTodo (P.filter (fun e => e.pending)) = overlayTodo P := by
  funext todo
  unfold overlayTodo
  rw [find?_pending_filter]

/-- Claim C7: settled entries never predict.  The view computed from any
pending set equals the view computed from its pending entries alone, so the
checked argument of an entry with `pending = false` is never consulted, and
a todo with no pending match keeps its snapshot value. -/
theorem settled_never_predicts (todos : Option (List Todo))
    (P : List Submission) :
    actualToDos todos P = actualToDos todos (P.filter (fun e => e.pending)) := by
  unfold actualToDos
  rw [any_pending_filter, overlay_filter]

/-- Claim C8: `actualToDos` is a pure function of its two inputs: it is
deterministic (equal inputs give equal outputs; there is no hidden state in
the embedding, mirroring the source, which only reads its inputs and builds
fresh objects via spread, never assigning into them). -/
theorem computeView_deterministic (S S₂ : Option (List Todo))
    (P P₂ : List Submission) (hS : S = S₂) (hP : P = P₂) :
    actualToDos S P = actualToDos S₂ P₂ := by
  subst hS
  subst hP
  rfl

/-- Witness for C8 at a concrete snapshot and pending set. -/
theorem computeView_deterministic_witness :
    ((some [(⟨"1", "a", false⟩ : Todo)] : Option (List Todo))
        = some [⟨"1", "a", false⟩]) ∧
    (([⟨true, (true, "1")⟩] : List Submission) = [⟨true, (true, "1")⟩]) ∧
    actualToDos (some [⟨"1", "a", false⟩]) [⟨true, (true, "1")⟩]
      = actualToDos (some [⟨"1", "a", false⟩]) [⟨true, (true, "1")⟩] :=
  ⟨rfl, rfl, computeView_deterministic _ _ _ _ rfl rfl⟩

/-- Claim C9: `setCompleted` is idempotent.  If an `update` call succeeds
and produces state `s₁`, running the very same call again from `s₁` succeeds
and returns `s₁` again (same store, same — still invalidated — cache), with
the same effect trace (so the only repeated effect is re-invalidation). -/
theorem setCompleted_idempotent (c : Bool) (id : String) (s s₁ : ServerState)
    (tr : List Event) (h : update c id s = (.ok (), s₁, tr)) :
    update c id s₁ = (.ok (), s₁, tr) := by
  have hany : s.store.any (fun t => t.id == id) = true := by
    by_contra hany
    rw [Bool.not_eq_true] at hany
    unfold update dbTodoUpdate at h
    rw [hany] at h
    simp at h
  have h2 := (update_eq_of_mem c id s hany).symm.trans h
  have hs₁ : s₁ = ⟨s.store.map (fun t =>
      if t.id == id then { t with completed := c } else t), none⟩ :=
    (congrArg (fun x => x.2.1) h2).symm
  have htr : tr = [.storeWrite, .invalidateListQuery] :=
    (congrArg (fun x => x.2.2) h2).symm
  subst hs₁
  subst htr
  have hfid : ∀ t : Todo,
      ((if t.id == id then { t with completed := c } else t) : Todo).id
        = t.id := by
    intro t
    by_cases hc : (t.id == id) = true <;> simp [hc]
  have hany2 : ((s.store.map (fun t =>
      if t.id == id then { t with completed := c } else t)).any
        (fun t => t.id == id)) = true := by
    rw [List.any_map]
    have hcomp : ((fun t : Todo => t.id == id) ∘ (fun t =>
        if t.id == id then { t with completed := c } else t))
          = fun t : Todo => t.id == id := by
      funext t
      show (((if t.id == id then { t with completed := c } else t) : Todo).id
          == id) = (t.id == id)
      rw [hfid t]
    rw [hcomp, hany]
  have hmap2 : (s.store.map (fun t =>
      if t.id == id then { t with completed := c } else t)).map (fun t =>
      if t.id == id then { t with completed := c } else t)
    = s.store.map (fun t =>
      if t.id == id then { t with completed := c } else t) := by
    rw [List.map_map]
    apply List.map_congr_left
    intro a _
    show (if ((if a.id == id then { a with completed := c } else a)
            : Todo).id == id
        then { ((if a.id == id then { a with completed := c } else a)
            : Todo) with completed := c }
        else ((if a.id == id then { a with completed := c } else a) : Todo))
      = if a.id == id then { a with completed := c } else a
    by_cases hc : (a.id == id) = true
    · simp [hc]
    · simp [hc]
  rw [update_eq_of_mem c id _ hany2]
  simp only [hmap2]

/-- Witness for C9: toggling id "1" to true twice; the second call returns
exactly the state and trace of the first. -/
theorem setCompleted_idempotent_witness :
    update true "1" ⟨[⟨"1", "a", false⟩], none⟩
        = (.ok (), ⟨[⟨"1", "a", true⟩], none⟩,
            [.storeWrite, .invalidateListQuery]) ∧
    update true "1" ⟨[⟨"1", "a", true⟩], none⟩
        = (.ok (), ⟨[⟨"1", "a", true⟩], none⟩,
            [.storeWrite, .invalidateListQuery]) :=
  ⟨rfl,
    setCompleted_idempotent true "1" ⟨[⟨"1", "a", false⟩], none⟩ _ _ rfl⟩

/-- Claim C10: when the last snapshot is not yet available (`todos` is
`none`), `actualToDos` returns `none` for every pending set, including
non-empty ones, without any error: the overlay map sits behind the
optional-chaining `t?.map`, so it is applied only when a snapshot exists. -/
theorem computeView_missing_snapshot (P : List Submission) :
    actualToDos none P = none := by
  unfold actualToDos
  cases P.any (fun e => e.pending) <;> rfl

end SolidStartData
